import Mathlib

/-!
Shallow embedding of `src/main.py`, a script that generates Elasticsearch
reindex/consolidation command text for the `partial-` backing indices of a
data stream.  Network interaction is modelled by passing the responses the
cluster would return as explicit values; the script's pure logic (filtering,
sorting, regex parsing, max-selection and string templating) is translated
function by function.
-/

namespace ReindexScript

/-- Truthiness of a Python string: empty strings are falsy. -/
def strTruthy (s : String) : Bool := !(s == "")

/-- Models Python `str.startswith(pre)`. -/
def pyStartsWith (s pre : String) : Bool := pre.data.isPrefixOf s.data

/-- Lexicographic code-point comparison on characters lists; models Python
string comparison `a <= b`. -/
def lexLe : List Char → List Char → Bool
  | [], _ => true
  | _ :: _, [] => false
  | a :: as, b :: bs =>
    if a.val < b.val then true
    else if b.val < a.val then false
    else lexLe as bs

/-- Insert a string into a list, keeping earlier elements that are `<=` it in
front (stable insertion). -/
def insertSorted (a : String) : List String → List String
  | [] => [a]
  | b :: bs => if lexLe b.data a.data then b :: insertSorted a bs else a :: b :: bs

/-- Models `list.sort()` on strings: Python sorts by code points; since that
order is total, the sorted sequence is uniquely determined, so insertion sort
agrees with Timsort. -/
def pySort (l : List String) : List String := l.foldl (fun acc a => insertSorted a acc) []

/-- One row of the `cat.indices(..., format json, h index)` response: the
value of its `index` field, `none` when the key is absent. -/
abbrev CatRow := Option String

/-- Success path of `get_partial_indices_for_data_stream`: the Python list
comprehension keeping rows whose `index` value is truthy, starts with
`partial-` and does not start with `partial-reindex-`. -/
def get_partial_indices_ok (response : List CatRow) : List String :=
  (response.filterMap id).filter
    (fun s => strTruthy s && pyStartsWith s "partial-" && !(pyStartsWith s "partial-reindex-"))

/-- Function `get_partial_indices_for_data_stream`: the listing request may raise
(`none`), in which case the `except` branch returns the empty list. -/
def get_partial_indices_for_data_stream (catResult : Option (List CatRow)) : List String :=
  match catResult with
  | some response => get_partial_indices_ok response
  | none => []

/-- The per-index object inside an `_ilm/explain` response: a JSON dict whose
fields we model as optional integers (a `null` field and an absent field are
both read as `None` by `dict.get`). -/
abbrev IndexInfo := List (String × Option Int)

/-- The `indices` object of an `_ilm/explain` response: insertion-ordered
dict from index name to its info object. -/
abbrev IndicesDict := List (String × IndexInfo)

/-- Outcome of the `GET .../_ilm/explain` request in `get_lifecycle_date_millis`:
`notFound` models `NotFoundError`, `error` any other exception, `ok` a JSON
response whose `indices` key may be absent. -/
inductive IlmResp where
  | notFound
  | error
  | ok (indices : Option IndicesDict)

/-- Models Python `info.get (quoted field name)` on an info dict. -/
def dictGetField (info : IndexInfo) (k : String) : Option Int := (List.lookup k info).join

/-- Function `get_lifecycle_date_millis`: exact-key lookup, single-entry fallback,
`None` on missing data or any request error. -/
def get_lifecycle_date_millis (index_name : String) (resp : IlmResp) : Option Int :=
  match resp with
  | .notFound => none
  | .error => none
  | .ok indicesOpt =>
    match indicesOpt with
    | none => none
    | some d =>
      if d.isEmpty then none
      else
        match List.lookup index_name d with
        | some info =>
          if !info.isEmpty then dictGetField info "lifecycle_date_millis"
          else if d.length == 1 then
            match d.head? with
            | some e => dictGetField e.2 "lifecycle_date_millis"
            | none => none
          else none
        | none =>
          if d.length == 1 then
            match d.head? with
            | some e => dictGetField e.2 "lifecycle_date_millis"
            | none => none
          else none

/-- All characters are decimal digits. -/
def isDigits (l : List Char) : Bool := l.all Char.isDigit

/-- Matches the fixed 18-character tail of the index-name regex, the part
written `-\d\d\d\d\.\d\d\.\d\d-\d\d\d\d\d\d` (dash, four-digit year, dot,
two-digit month, dot, two-digit day, dash, six digits). -/
def datePat (cs : List Char) : Bool :=
  cs.length == 18 &&
  cs.head? == some '-' &&
  isDigits ((cs.drop 1).take 4) &&
  ((cs.drop 5).head? == some '.') &&
  isDigits ((cs.drop 6).take 2) &&
  ((cs.drop 8).head? == some '.') &&
  isDigits ((cs.drop 9).take 2) &&
  ((cs.drop 11).head? == some '-') &&
  isDigits (cs.drop 12)

/-- Backtracking search for the greedy `.+` of the regex: the largest
`k ≤ bound` such that the first `k` characters contain no newline and the 18
characters starting at position `k` match `datePat`. -/
def findK (t : List Char) : Nat → Option Nat
  | 0 => none
  | k + 1 =>
    if ((t.take (k + 1)).all (fun c => c != '\n')) && datePat ((t.drop (k + 1)).take 18) then
      some (k + 1)
    else findK t k

/-- Models `re.match` with the pattern `partial-` `(` `\.ds-` `.+` followed by
the 18-character date tail `)` : anchored at the start, no end anchor, greedy
`.+` (which cannot cross a newline).  Returns `group(1)` on success. -/
def parse_partial_base (s : String) : Option String :=
  let cs := s.data
  if cs.take 12 == "partial-.ds-".data then
    let t := cs.drop 12
    match findK t (t.length - 18) with
    | some k => some (String.mk (".ds-".data ++ t.take k ++ (t.drop k).take 18))
    | none => none
  else none

/-- Destination name derived from a partial index in step 3. -/
def reindex_dest (s : String) : Option String :=
  (parse_partial_base s).map (fun b => "reindex-" ++ b)

/-- Models `re.search` with pattern dash-six-digits-at-end-of-string inside
`get_suffix_number`: the trailing suffix is parsed when the string ends with a
dash followed by exactly six digits. -/
def hasValidSuffix (s : String) : Bool :=
  let r := s.data.reverse
  decide (7 ≤ r.length) && isDigits (r.take 6) && (r.drop 6).head? == some '-'

/-- Decimal value of a digit character. -/
def digitVal (c : Char) : Nat := c.toNat - '0'.toNat

/-- Decimal value of a digit list, most significant first. -/
def decValue (l : List Char) : Nat := l.foldl (fun a c => 10 * a + digitVal c) 0

/-- Function `get_suffix_number`: the numeric value of the trailing six-digit suffix,
and -1 when the suffix regex does not match. -/
def get_suffix_number (index_name : String) : Int :=
  if hasValidSuffix index_name then
    Int.ofNat (decValue ((index_name.data.reverse.take 6).reverse))
  else -1

/-- The fold performed by Python `max(xs, key=key)` once the first element is
split off: a later element replaces the current best only when its key is
strictly greater, so the first element attaining the maximal key wins. -/
def pymaxFold (key : String → Int) (best : String) (xs : List String) : String :=
  xs.foldl (fun b y => if key y > key b then y else b) best

/-- Python `max(l, key=key)`, `none` on the empty list. -/
def pymax (key : String → Int) : List String → Option String
  | [] => none
  | x :: xs => some (pymaxFold key x xs)

/-- A calendar date as `datetime.date.today()` supplies it. -/
structure PyDate where
  year : Nat
  month : Nat
  day : Nat

/-- Decimal digit characters of `n`, most significant first, accumulated onto
`acc`; structural recursion on a fuel argument kept at least `n` so that the
base case is never reached with a value of two or more digits. -/
def decAux : Nat → Nat → List Char → List Char
  | 0, n, acc => Nat.digitChar n :: acc
  | fuel + 1, n, acc =>
    if n < 10 then Nat.digitChar n :: acc
    else decAux fuel (n / 10) (Nat.digitChar (n % 10) :: acc)

/-- Decimal digit characters of `n`. -/
def natToDec (n : Nat) : List Char := decAux n n []

/-- Zero-pad a digit list on the left to width `w`. -/
def padLeft (w : Nat) (l : List Char) : List Char := List.replicate (w - l.length) '0' ++ l

/-- Models `date.strftime` with format year dot month dot day: the year
zero-padded to four characters, month and day to two. -/
def strftimeYMD (dt : PyDate) : String :=
  String.mk (padLeft 4 (natToDec dt.year) ++ ['.'] ++ padLeft 2 (natToDec dt.month)
    ++ ['.'] ++ padLeft 2 (natToDec dt.day))

/-- The consolidated destination index name computed in step 6. -/
def large_index_name (data_stream_name : String) (today : PyDate) : String :=
  "reindex-.ds-" ++ data_stream_name ++ "-large-" ++ strftimeYMD today

/-- Shape check for a formatted date: ten characters, four digits, a dot, two
digits, a dot, two digits. -/
def isDateString (s : String) : Bool :=
  s.data.length == 10 &&
  isDigits (s.data.take 4) &&
  ((s.data.drop 4).head? == some '.') &&
  isDigits ((s.data.drop 5).take 2) &&
  ((s.data.drop 7).head? == some '.') &&
  isDigits (s.data.drop 8)

/-- Separator appended before each step section. -/
def sepLine : String := "\n---\n"

/-- Error line emitted when the client is absent or the ping fails. -/
def connErrorLine : String :=
  "❌ Elasticsearch client is not connected. Please ensure your .env file is configured correctly and the connection is successful."

/-- Report title line. -/
def titleLine (ds : String) : String := "# Commands for Data Stream: `" ++ ds ++ "`"

/-- Step 3 header. -/
def h3Line : String := "## Step 3: Reindex Individual Partial Indices (Run these in sequence)"

/-- Warning when the listing produced no partial indices. -/
def noPartialLine : String :=
  "⚠️ No partial indices found for the specified data stream. Please ensure the data stream name is correct and partial indices exist."

/-- Step 3 prose line. -/
def p3Line : String :=
  "Here are the commands to reindex each `partial-` index into a temporary `reindex-` prefixed index:"

/-- Warning for an index name the regex cannot parse. -/
def parseWarnLine (idx : String) : String :=
  "⚠️ Could not parse index name format for: " ++ idx ++ ". Skipping reindex command for this index."

/-- Per-index reindex command of step 3. -/
def reindexCmdLine (idx dest : String) : String :=
  "```json\nPOST /_reindex?wait_for_completion=false\n\x7b\n  \"source\": \x7b\n    \"index\": \"" ++ idx
    ++ "\"\n  \x7d,\n  \"dest\": \x7b\n    \"index\": \"" ++ dest
    ++ "\",\n    \"op_type\": \"create\"\n  \x7d\n\x7d\n```"

/-- Step 4 header. -/
def h4Line : String := "## Step 4: Compare Document Counts"

/-- Step 4 prose line. -/
def p4Line : String :=
  "Use these commands to compare document counts between the original and newly reindexed temporary indices. Look for matching `docs.count`:"

/-- Step 4 warning. -/
def warn4Line : String :=
  "⚠️ No indices to compare. Please ensure Step 3 generated temporary indices successfully."

/-- Count-comparison command of step 4. -/
def countCmdLine (original reindexed : String) : String :=
  "```bash\nGET _cat/indices/" ++ original ++ "," ++ reindexed ++ "?v&expand_wildcards=all\n```"

/-- Step 5 header. -/
def h5Line : String := "## Step 5: Obtain `lifecycle_date_millis` for the Most Recent Index"

/-- Step 5 announcement of the most recent partial index. -/
def p5aLine (m : String) : String :=
  "We\x27ll fetch the `lifecycle_date_millis` for the most recent partial index: `" ++ m ++ "`."

/-- Step 5 success line showing the obtained value. -/
def p5gotLine (v : Int) : String :=
  "The `lifecycle_date_millis` obtained is: `" ++ toString v ++ "`. This value is crucial for Step 7."

/-- Step 5 could-not-retrieve warning. -/
def warn5Line : String :=
  "⚠️ Could not retrieve `lifecycle_date_millis`. This value is required for subsequent steps."

/-- Step 5 manual-verification prose. -/
def p5bLine : String :=
  "Use the command below to manually verify the `lifecycle_date_millis` value:"

/-- Step 5 manual-verification command. -/
def ilmExplainLine (m : String) : String := "```bash\nGET " ++ m ++ "/_ilm/explain\n```"

/-- Step 5 warning when no partial indices exist. -/
def warn5bLine : String :=
  "⚠️ Cannot obtain `lifecycle_date_millis` as no partial indices were found."

/-- Step 6 header. -/
def h6Line : String := "## Step 6: Consolidate Temporary Indices into a New Large Index"

/-- Step 6 prose line. -/
def p6Line (large : String) : String :=
  "The temporary indices will be reindexed into a new, consolidated index named `" ++ large ++ "`:"

/-- Step 6 consolidation command over all temporary indices. -/
def consolidateLine (temps : List String) (large : String) : String :=
  "```json\nPOST _reindex?wait_for_completion=false\n\x7b\n  \"source\": \x7b\n    \"index\": ["
    ++ String.intercalate ", " (temps.map (fun i => "\"" ++ i ++ "\""))
    ++ "]\n  \x7d,\n  \"dest\": \x7b\n    \"index\": \"" ++ large ++ "\"\n  \x7d\n\x7d\n```"

/-- Step 6 warning. -/
def warn6Line : String :=
  "⚠️ No temporary reindex indices to consolidate. Please ensure Step 3 was successful."

/-- Step 7 header. -/
def h7Line : String := "## Step 7: Adjust Rollover Age and Manually Resolve ILM Error"

/-- Step 7 prose before the settings update. -/
def p7aLine (large : String) : String :=
  "First, apply the `lifecycle_date_millis` to the new large index (`" ++ large
    ++ "`) and mark it as complete for indexing. This is crucial for ILM to correctly manage its age:"

/-- Step 7 settings-update command stamping the origination date. -/
def settingsLine (large : String) (v : Int) : String :=
  "```json\nPUT " ++ large
    ++ "/_settings\n\x7b\n  \"index.lifecycle.indexing_complete\": true,\n  \"index.lifecycle.origination_date\": "
    ++ toString v ++ "\n\x7d\n```"

/-- Step 7 prose before the ILM move command. -/
def p7bLine : String :=
  "If, after the settings update, the index enters an ILM ERROR state (which is expected as it doesn\x27t have a traditional write alias), use this command to manually move it past the error phase and allow ILM to continue its lifecycle:"

/-- Step 7 fixed-shape ILM state-transition command. -/
def ilmMoveLine (large : String) : String :=
  "```json\nPOST _ilm/move/" ++ large
    ++ "\n\x7b\n  \"current_step\": \x7b\n    \"phase\": \"hot\",\n    \"action\": \"rollover\",\n    \"name\" : \"ERROR\"\n  \x7d,\n  \"next_step\": \x7b\n      \"phase\": \"hot\",\n      \"action\": \"complete\"\n  \x7d\n\x7d\n```"

/-- Step 7 missing-prerequisite warning. -/
def warn7Line : String :=
  "⚠️ Cannot generate Step 7 commands without a valid `lifecycle_date_millis` or the large index name."

/-- Step 8 header. -/
def h8Line : String := "## Step 8: Modify Data Stream (Add/Remove Backing Indices) and Confirm"

/-- Step 8 prose line. -/
def p8aLine (large ds : String) : String :=
  "Now, replace the old `partial-` indices with the new large index (`" ++ large
    ++ "`) within data stream `" ++ ds
    ++ "`. This will make the new index part of your data stream:"

/-- One remove-backing-index action of the step 8 command. -/
def removeActionLine (ds idx : String) : String :=
  "    \x7b\n      \"remove_backing_index\": \x7b\n        \"data_stream\": \"" ++ ds
    ++ "\",\n        \"index\": \"" ++ idx ++ "\"\n      \x7d\n    \x7d"

/-- Step 8 data-stream-modify command. -/
def modifyLine (ds : String) (partials : List String) (large : String) : String :=
  "```json\nPOST _data_stream/_modify\n\x7b\n  \"actions\": [\n"
    ++ String.intercalate ",\n" (partials.map (removeActionLine ds))
    ++ ",\n    \x7b\n      \"add_backing_index\": \x7b\n        \"data_stream\": \"" ++ ds
    ++ "\",\n        \"index\": \"" ++ large ++ "\"\n      \x7d\n    \x7d\n  ]\n\x7d\n```"

/-- Step 8 read-back prose. -/
def p8bLine : String :=
  "Confirm the swap was successful and that the new large index is listed under your data stream\x27s indices using this command:"

/-- Step 8 read-back command. -/
def confirmLine (ds : String) : String := "```bash\nGET _data_stream/" ++ ds ++ "\n```"

/-- Step 8 missing-prerequisite warning. -/
def warn8Line : String :=
  "⚠️ Cannot generate Step 8 commands without partial indices or a large index name."

/-- Step 9 header. -/
def h9Line : String := "## Step 9: Delete Old and Temporary Indices"

/-- Step 9 prose line. -/
def p9Line : String :=
  "Once you have confirmed that all steps are successful and your data stream is functioning correctly with the new large index, you can safely delete the old `partial-` indices and the temporary `reindex-` indices (but NOT the `reindex-.ds-<data-stream-name>-large` index!):"

/-- Step 9 delete command joining all names with commas. -/
def deleteLine (dels : List String) : String :=
  "```bash\nDELETE " ++ String.intercalate "," dels ++ "\n```"

/-- Step 9 nothing-to-delete success message. -/
def ok9Line : String :=
  "✅ No old or temporary indices found to delete. If this is unexpected, verify previous steps."

/-- The environment a run of the generator observes: whether a client object
exists, the ping outcome, the cat-indices response (or a raised error), and
the `_ilm/explain` response the cluster returns for a queried index. -/
structure GenEnv where
  hasClient : Bool
  pingOk : Bool
  catResult : Option (List CatRow)
  ilm : String → IlmResp

/-- The `partial_indices` list of the generator after the in-place
`partial_indices.sort()` of step 3. -/
def sorted_partial_indices (catResult : Option (List CatRow)) : List String :=
  pySort (get_partial_indices_for_data_stream catResult)

/-- The `reindex_temp_indices` list collected while looping over the sorted
partial indices in step 3: one derived name per successfully parsed index. -/
def reindex_temp_indices_of (partial_indices : List String) : List String :=
  partial_indices.filterMap reindex_dest

/-- Step 3 lines: the header, then either the no-partial-indices warning or
the prose line, the per-index parse warnings appended during the loop, and
the collected reindex commands extended afterwards. -/
def step3Lines (partial_indices : List String) : List String :=
  [h3Line] ++
  (if partial_indices.isEmpty then [noPartialLine]
   else
    [p3Line]
      ++ partial_indices.filterMap
          (fun i => if (parse_partial_base i).isSome then none else some (parseWarnLine i))
      ++ partial_indices.filterMap
          (fun i => (parse_partial_base i).map (fun b => reindexCmdLine i ("reindex-" ++ b))))

/-- Step 4 lines.  The loop runs over the positions of `partial_indices` and
reads `reindex_temp_indices` at the same position, so when that list is
shorter (and non-empty) the read raises an uncaught `IndexError`, modelled as
`none`. -/
def step4Lines (partial_indices reindex_temp_indices : List String) : Option (List String) :=
  if !partial_indices.isEmpty && !reindex_temp_indices.isEmpty then
    if reindex_temp_indices.length < partial_indices.length then none
    else
      some ([sepLine, h4Line, p4Line]
        ++ (partial_indices.zip reindex_temp_indices).map (fun p => countCmdLine p.1 p.2))
  else some [sepLine, h4Line, warn4Line]

/-- The step 5 lines once the most recent index is known: announcement, the
obtained-value line when `lifecycle_date_millis` is truthy (a nonzero
integer) or the warning otherwise, then the manual-verification command. -/
def step5render (most_recent : String) (lifecycle : Option Int) : List String :=
  [sepLine, h5Line, p5aLine most_recent] ++
  (match lifecycle with
   | some v => if v != 0 then [p5gotLine v] else [warn5Line]
   | none => [warn5Line]) ++
  [p5bLine, ilmExplainLine most_recent]

/-- Step 6 lines. -/
def step6Lines (reindex_temp_indices : List String) (large : String) : List String :=
  [sepLine, h6Line] ++
  (if !reindex_temp_indices.isEmpty then [p6Line large, consolidateLine reindex_temp_indices large]
   else [warn6Line])

/-- Step 7 lines: the Python guard tests the truthiness of the lifecycle
value and of the large index name. -/
def step7Lines : Option Int → String → List String
  | some v, large =>
    [sepLine, h7Line] ++
    (if v != 0 && strTruthy large then
      [p7aLine large, settingsLine large v, p7bLine, ilmMoveLine large]
     else [warn7Line])
  | none, _ => [sepLine, h7Line, warn7Line]

/-- Step 8 lines. -/
def step8Lines (ds : String) (partial_indices : List String) (large : String) : List String :=
  [sepLine, h8Line] ++
  (if !partial_indices.isEmpty && strTruthy large then
    [p8aLine large ds, modifyLine ds partial_indices large, p8bLine, confirmLine ds]
   else [warn8Line])

/-- Step 9 lines over `indices_to_delete`, the concatenation of the partial
indices and the derived temporary indices. -/
def step9Lines (partial_indices reindex_temp_indices : List String) : List String :=
  let indices_to_delete := partial_indices ++ reindex_temp_indices
  [sepLine, h9Line] ++
  (if !indices_to_delete.isEmpty then [p9Line, deleteLine indices_to_delete]
   else [ok9Line])

/-- The full list of lines appended to `output` by
`generate_elasticsearch_reindex_commands`, or `none` when the run dies with
the step 4 `IndexError`.  Step 5 computes the most recent partial index with
`max` keyed by `get_suffix_number` and queries its lifecycle value, which
step 7 reuses. -/
def generateLines (data_stream_name : String) (today : PyDate) (env : GenEnv) :
    Option (List String) :=
  if !env.hasClient || !env.pingOk then some [connErrorLine]
  else
    let partial_indices := sorted_partial_indices env.catResult
    let reindex_temp_indices := reindex_temp_indices_of partial_indices
    let s3 := step3Lines partial_indices
    match step4Lines partial_indices reindex_temp_indices with
    | none => none
    | some s4 =>
      let s5lc : List String × Option Int :=
        match partial_indices with
        | [] => ([sepLine, h5Line, warn5bLine], none)
        | x :: xs =>
          let m := pymaxFold get_suffix_number x xs
          let lc := get_lifecycle_date_millis m (env.ilm m)
          (step5render m lc, lc)
      let large := large_index_name data_stream_name today
      let s6 := step6Lines reindex_temp_indices large
      let s7 := step7Lines s5lc.2 large
      let s8 := step8Lines data_stream_name partial_indices large
      let s9 := step9Lines partial_indices reindex_temp_indices
      some ([titleLine data_stream_name, sepLine] ++ s3 ++ s4 ++ s5lc.1 ++ s6 ++ s7 ++ s8 ++ s9)

/-- Function `generate_elasticsearch_reindex_commands`: the report string returned by
the function (the lines joined with newlines), or `none` when the run raises
the step 4 `IndexError`. -/
def generate_elasticsearch_reindex_commands (data_stream_name : String) (today : PyDate)
    (env : GenEnv) : Option String :=
  (generateLines data_stream_name today env).map (String.intercalate "\n")

theorem mem_insertSorted {x a : String} {l : List String} :
    x ∈ insertSorted a l ↔ x = a ∨ x ∈ l := by
  induction l with
  | nil => simp [insertSorted]
  | cons b bs ih =>
    by_cases h : lexLe b.data a.data
    · simp only [insertSorted, h, if_pos, List.mem_cons, ih]
      tauto
    · simp only [insertSorted, h, if_neg, Bool.false_eq_true, not_false_iff, List.mem_cons]

theorem mem_pySort_fold {x : String} :
    ∀ (l acc : List String),
      x ∈ l.foldl (fun acc a => insertSorted a acc) acc ↔ x ∈ l ∨ x ∈ acc := by
  intro l
  induction l with
  | nil => simp
  | cons a t ih =>
    intro acc
    simp only [List.foldl_cons, ih, mem_insertSorted, List.mem_cons]
    tauto

theorem mem_pySort {x : String} {l : List String} : x ∈ pySort l ↔ x ∈ l := by
  simp [pySort, mem_pySort_fold]

theorem mem_get_partial_indices {catResult : Option (List CatRow)} {name : String}
    (h : name ∈ get_partial_indices_for_data_stream catResult) :
    strTruthy name = true ∧ pyStartsWith name "partial-" = true ∧
      pyStartsWith name "partial-reindex-" = false := by
  match catResult with
  | none => cases h
  | some response =>
    simp only [get_partial_indices_for_data_stream, get_partial_indices_ok,
      List.mem_filter] at h
    have hp := h.2
    simp only [Bool.and_eq_true, Bool.not_eq_true'] at hp
    exact ⟨hp.1.1, hp.1.2, hp.2⟩

/-- Claim C3: every name returned by the index lister starts with the prefix
`partial-` and does not start with `partial-reindex-`, for every listing
response (including responses that do contain `partial-reindex-` names). -/
theorem c3_lister_filter (catResult : Option (List CatRow)) (name : String)
    (h : name ∈ get_partial_indices_for_data_stream catResult) :
    pyStartsWith name "partial-" = true ∧ pyStartsWith name "partial-reindex-" = false :=
  ⟨(mem_get_partial_indices h).2.1, (mem_get_partial_indices h).2.2⟩

/-- Witness for C3: a concrete listing holding a `partial-reindex-` name, an
untruthy row and a plain `partial-` name. -/
theorem c3_lister_filter_witness :
    pyStartsWith "partial-.ds-logs-app-default-2024.01.01-000001" "partial-" = true ∧
      pyStartsWith "partial-.ds-logs-app-default-2024.01.01-000001" "partial-reindex-" = false :=
  c3_lister_filter
    (some [some "partial-reindex-.ds-logs-app-default-2024.01.01-000009", none,
      some "partial-.ds-logs-app-default-2024.01.01-000001"])
    "partial-.ds-logs-app-default-2024.01.01-000001" (by decide)

/-- Claim C5: with an absent client or a failed ping the report is exactly the
single connection-error line, which itself contains no newline, so no later
section is emitted. -/
theorem c5_connection_error (ds : String) (today : PyDate) (env : GenEnv)
    (h : env.hasClient = false ∨ env.pingOk = false) :
    generate_elasticsearch_reindex_commands ds today env = some connErrorLine ∧
      connErrorLine.data.all (fun c => c != '\n') = true := by
  have hcond : (!env.hasClient || !env.pingOk) = true := by
    rcases h with h | h <;> simp [h]
  constructor
  · simp only [generate_elasticsearch_reindex_commands, generateLines, hcond, if_pos,
      Option.map_some']
    rfl
  · decide

/-- Witness for C5: a concrete environment whose ping fails. -/
theorem c5_connection_error_witness :
    generate_elasticsearch_reindex_commands "logs-app-default" ⟨2026, 10, 12⟩
        ⟨true, false, some [some "partial-.ds-logs-app-default-2024.01.01-000001"],
          fun _ => IlmResp.notFound⟩ = some connErrorLine ∧
      connErrorLine.data.all (fun c => c != '\n') = true :=
  c5_connection_error "logs-app-default" ⟨2026, 10, 12⟩
    ⟨true, false, some [some "partial-.ds-logs-app-default-2024.01.01-000001"],
      fun _ => IlmResp.notFound⟩ (Or.inr rfl)

/-- Counterexample to claim C2 as stated: with one parsable and one
unparsable partial index the derived temp list is strictly shorter than the
sorted partial list. -/
theorem c2_counterexample :
    ¬ ((reindex_temp_indices_of (sorted_partial_indices
          (some [some "partial-.ds-logs-app-default-2024.01.01-000001",
            some "partial-unparsable"]))).length
        = (sorted_partial_indices
            (some [some "partial-.ds-logs-app-default-2024.01.01-000001",
              some "partial-unparsable"])).length) := by
  decide

/-- Claim C2 (amended): the derived temp list has one entry per partial index
whose name matches the parsing pattern, so the two positional lists have
equal length exactly when every partial index name parses. -/
theorem c2_amended (l : List String) :
    (reindex_temp_indices_of l).length
        = (l.filter (fun i => (parse_partial_base i).isSome)).length ∧
      ((∀ i ∈ l, (parse_partial_base i).isSome = true) →
        (reindex_temp_indices_of l).length = l.length) := by
  constructor
  · induction l with
    | nil => rfl
    | cons a t ih =>
      cases h : parse_partial_base a with
      | none => simpa [reindex_temp_indices_of, reindex_dest, h] using ih
      | some b => simpa [reindex_temp_indices_of, reindex_dest, h] using ih
  · intro hall
    induction l with
    | nil => rfl
    | cons a t ih =>
      have ha := hall a (List.mem_cons_self a t)
      cases h : parse_partial_base a with
      | none => simp [h] at ha
      | some b =>
        have := ih (fun i hi => hall i (List.mem_cons_of_mem a hi))
        simpa [reindex_temp_indices_of, reindex_dest, h] using this

/-- Witness for C2 (amended): a single parsable index gives lists of equal
length one. -/
theorem c2_amended_witness :
    (reindex_temp_indices_of ["partial-.ds-logs-app-default-2024.01.01-000001"]).length
        = (["partial-.ds-logs-app-default-2024.01.01-000001"].filter
            (fun i => (parse_partial_base i).isSome)).length ∧
      (reindex_temp_indices_of ["partial-.ds-logs-app-default-2024.01.01-000001"]).length = 1 := by
  have h := c2_amended ["partial-.ds-logs-app-default-2024.01.01-000001"]
  exact ⟨h.1, (h.2 (by decide)).trans rfl⟩

/-- Counterexample to claim C8 as stated: a lifecycle value of 0 is available
and the consolidated name exists, yet step 7 emits only the warning and
neither command. -/
theorem c8_counterexample :
    step7Lines (some 0) (large_index_name "logs-app-default" ⟨2026, 10, 12⟩)
        = [sepLine, h7Line, warn7Line] ∧
      settingsLine (large_index_name "logs-app-default" ⟨2026, 10, 12⟩) 0
        ∉ step7Lines (some 0) (large_index_name "logs-app-default" ⟨2026, 10, 12⟩) := by
  constructor
  · rfl
  · decide

/-- Claim C8 (amended): when the step 5 lifecycle value is present and
nonzero and the consolidated name is nonempty, step 7 emits both the
settings-update command and the ILM move command; when the value is absent or
zero, or the name empty, it emits the warning line instead. -/
theorem c8_amended (lc : Option Int) (large : String) :
    (∀ v : Int, lc = some v → v ≠ 0 → large ≠ "" →
      step7Lines lc large
        = [sepLine, h7Line, p7aLine large, settingsLine large v, p7bLine, ilmMoveLine large]) ∧
      (lc = none ∨ lc = some 0 ∨ large = "" →
        step7Lines lc large = [sepLine, h7Line, warn7Line]) := by
  constructor
  · intro v hv h0 hl
    subst hv
    have h1 : (v != 0) = true := by simpa [bne_iff_ne] using h0
    have h2 : (large == "") = false := by simpa using hl
    simp [step7Lines, strTruthy, h1, h2]
  · intro h
    rcases h with h | h | h
    · subst h; rfl
    · subst h; rfl
    · subst h
      cases lc with
      | none => rfl
      | some v => simp [step7Lines, strTruthy]

/-- Witness for C8 (amended): a concrete nonzero value and nonempty name
yield the two commands. -/
theorem c8_amended_witness :
    step7Lines (some 1700000000000) "reindex-.ds-logs-app-default-large-2026.10.12"
        = [sepLine, h7Line, p7aLine "reindex-.ds-logs-app-default-large-2026.10.12",
          settingsLine "reindex-.ds-logs-app-default-large-2026.10.12" 1700000000000,
          p7bLine, ilmMoveLine "reindex-.ds-logs-app-default-large-2026.10.12"] :=
  (c8_amended (some 1700000000000) "reindex-.ds-logs-app-default-large-2026.10.12").1
    1700000000000 rfl (by decide) (by decide)

/-- Claim C1 is violated by the code: with a connected client and a listing
that mixes one parsable and one unparsable partial index name, the run dies
with the uncaught step 4 `IndexError` (modelled as `none`) instead of
returning a report string. -/
theorem c1_crash_eval :
    generate_elasticsearch_reindex_commands "logs-app-default" ⟨2026, 10, 12⟩
        ⟨true, true,
          some [some "partial-.ds-logs-app-default-2024.01.01-000001",
            some "partial-unparsable"],
          fun _ => IlmResp.notFound⟩ = none := by
  rfl

/-- Claim C6: the lifecycle reader returns the `lifecycle_date_millis` field
of the entry keyed by the exact index name when that key is present; when the
key is absent but the response holds exactly one entry it returns that
entry's field; on a not-found or any other request error it returns `none`
(the reader is a total function, so it never raises). -/
theorem c6_lifecycle_reader (name : String) (d : IndicesDict) (info : IndexInfo)
    (e : String × IndexInfo) :
    get_lifecycle_date_millis name IlmResp.notFound = none ∧
      get_lifecycle_date_millis name IlmResp.error = none ∧
      (List.lookup name d = some info →
        get_lifecycle_date_millis name (IlmResp.ok (some d))
          = dictGetField info "lifecycle_date_millis") ∧
      (name ≠ e.1 →
        get_lifecycle_date_millis name (IlmResp.ok (some [e]))
          = dictGetField e.2 "lifecycle_date_millis") := by
  refine ⟨rfl, rfl, ?_, ?_⟩
  · intro hl
    have hne : d.isEmpty = false := by
      cases d with
      | nil => cases hl
      | cons a t => rfl
    simp only [get_lifecycle_date_millis, hne, Bool.false_eq_true, if_false, hl]
    by_cases hi : info.isEmpty
    · have hinfo : info = [] := by
        cases info with
        | nil => rfl
        | cons a t => cases hi
      subst hinfo
      simp only [List.isEmpty_nil, Bool.not_true, Bool.false_eq_true, if_false]
      by_cases hlen : d.length == 1
      · have h1 : d.length = 1 := by simpa using hlen
        obtain ⟨a, ha⟩ := List.length_eq_one.mp h1
        subst ha
        rcases a with ⟨k, v⟩
        rw [List.lookup_cons] at hl
        cases hbeq : name == k with
        | false => simp [hbeq] at hl
        | true =>
          simp only [hbeq] at hl
          have hv : v = [] := by simpa using hl.symm
          subst hv
          simp [hlen]
      · simp [hlen, dictGetField]
    · have hi' : info.isEmpty = false := by
        cases h : info.isEmpty with
        | false => rfl
        | true => exact absurd h hi
      simp [hi']
  · intro hne
    have hbeq : (name == e.1) = false := by simpa using hne
    rcases e with ⟨k, v⟩
    simp only [get_lifecycle_date_millis, List.isEmpty_cons, Bool.false_eq_true, if_false,
      List.lookup_cons]
    simp [hbeq]

/-- Witness for C6: exact-key hit, single-entry fallback and not-found error
at concrete responses. -/
theorem c6_lifecycle_reader_witness :
    get_lifecycle_date_millis "idx"
        (IlmResp.ok (some [("idx", [("lifecycle_date_millis", some 1700000000000)])]))
          = some 1700000000000 ∧
      get_lifecycle_date_millis "idx"
        (IlmResp.ok (some [("other", [("lifecycle_date_millis", some 7)])])) = some 7 ∧
      get_lifecycle_date_millis "idx" IlmResp.notFound = none := by
  have h1 := (c6_lifecycle_reader "idx" [("idx", [("lifecycle_date_millis", some 1700000000000)])]
    [("lifecycle_date_millis", some 1700000000000)] ("x", [])).2.2.1 (by decide)
  have h2 := (c6_lifecycle_reader "idx" [] []
    ("other", [("lifecycle_date_millis", some 7)])).2.2.2 (by decide)
  exact ⟨h1.trans (by decide), h2.trans (by decide),
    (c6_lifecycle_reader "idx" [] [] ("x", [])).1⟩

/-- Claim C10: a lifecycle value of 0 is falsy in the step 5 and step 7
guards, so a run whose lifecycle query yields 0 produces exactly the same
report as one whose query yields nothing: step 5 emits the could-not-retrieve
warning and step 7 emits its missing-prerequisite warning. -/
theorem c10_zero_lifecycle (ds : String) (today : PyDate) (hc pg : Bool)
    (cat : Option (List CatRow)) (f g : String → IlmResp)
    (hf : ∀ s, get_lifecycle_date_millis s (f s) = some 0)
    (hg : ∀ s, get_lifecycle_date_millis s (g s) = none) :
    generateLines ds today ⟨hc, pg, cat, f⟩ = generateLines ds today ⟨hc, pg, cat, g⟩ ∧
      (∀ m, step5render m (some 0) = step5render m none ∧
        warn5Line ∈ step5render m (some 0)) ∧
      (∀ large, step7Lines (some 0) large = [sepLine, h7Line, warn7Line]) := by
  have h5 : ∀ m, step5render m (some 0) = step5render m none := fun m => rfl
  have h7 : ∀ large, step7Lines (some 0) large = [sepLine, h7Line, warn7Line] :=
    fun large => rfl
  refine ⟨?_, fun m => ⟨h5 m, by simp [step5render]⟩, h7⟩
  by_cases hcp : (!hc || !pg) = true
  · simp [generateLines, hcp]
  · simp only [generateLines, hcp, Bool.false_eq_true, if_false]
    cases hp : sorted_partial_indices cat with
    | nil => rfl
    | cons x xs =>
      simp only [hp, hf, hg]
      rw [h5, h7]
      rfl

/-- Witness for C10: two concrete environments differing only in the
lifecycle response (value 0 versus not-found) produce identical reports. -/
theorem c10_zero_lifecycle_witness :
    generateLines "logs-app-default" ⟨2026, 10, 12⟩
        ⟨true, true, some [some "partial-.ds-logs-app-default-2024.01.01-000001"],
          fun s => IlmResp.ok (some [(s, [("lifecycle_date_millis", some 0)])])⟩
      = generateLines "logs-app-default" ⟨2026, 10, 12⟩
        ⟨true, true, some [some "partial-.ds-logs-app-default-2024.01.01-000001"],
          fun _ => IlmResp.notFound⟩ ∧
      warn5Line ∈ step5render "partial-.ds-logs-app-default-2024.01.01-000001" (some 0) ∧
      step7Lines (some 0) "reindex-.ds-logs-app-default-large-2026.10.12"
        = [sepLine, h7Line, warn7Line] := by
  have h := c10_zero_lifecycle "logs-app-default" ⟨2026, 10, 12⟩ true true
    (some [some "partial-.ds-logs-app-default-2024.01.01-000001"])
    (fun s => IlmResp.ok (some [(s, [("lifecycle_date_millis", some 0)])]))
    (fun _ => IlmResp.notFound)
    (fun s => by simp [get_lifecycle_date_millis, dictGetField, List.lookup_cons])
    (fun _ => rfl)
  exact ⟨h.1, (h.2.1 "partial-.ds-logs-app-default-2024.01.01-000001").2,
    h.2.2 "reindex-.ds-logs-app-default-large-2026.10.12"⟩

theorem digitChar_isDigit {n : Nat} (h : n < 10) : (Nat.digitChar n).isDigit = true := by
  interval_cases n <;> rfl

theorem decAux_digits :
    ∀ (fuel n : Nat) (acc : List Char), n ≤ fuel → (∀ c ∈ acc, c.isDigit = true) →
      ∀ c ∈ decAux fuel n acc, c.isDigit = true := by
  intro fuel
  induction fuel with
  | zero =>
    intro n acc hn hacc c hc
    have hn0 : n = 0 := Nat.le_zero.mp hn
    subst hn0
    simp only [decAux, List.mem_cons] at hc
    rcases hc with hc | hc
    · subst hc; rfl
    · exact hacc c hc
  | succ fuel ih =>
    intro n acc hn hacc c hc
    by_cases h10 : n < 10
    · simp only [decAux, h10, if_pos, List.mem_cons] at hc
      rcases hc with hc | hc
      · subst hc; exact digitChar_isDigit h10
      · exact hacc c hc
    · simp only [decAux, h10, if_neg, Bool.false_eq_true] at hc
      refine ih (n / 10) (Nat.digitChar (n % 10) :: acc) ?_ ?_ c hc
      · have : n / 10 < n := Nat.div_lt_self (by omega) (by omega)
        omega
      · intro c' hc'
        rcases List.mem_cons.mp hc' with hc' | hc'
        · subst hc'; exact digitChar_isDigit (Nat.mod_lt n (by omega))
        · exact hacc c' hc'

theorem decAux_length :
    ∀ (fuel n : Nat) (acc : List Char) (w : Nat), n ≤ fuel → n < 10 ^ w → 1 ≤ w →
      (decAux fuel n acc).length ≤ w + acc.length := by
  intro fuel
  induction fuel with
  | zero =>
    intro n acc w hn hw h1
    simp only [decAux, List.length_cons]
    omega
  | succ fuel ih =>
    intro n acc w hn hw h1
    by_cases h10 : n < 10
    · simp only [decAux, h10, if_pos, List.length_cons]
      omega
    · have hrw : decAux (fuel + 1) n acc
          = decAux fuel (n / 10) (Nat.digitChar (n % 10) :: acc) := by
        simp [decAux, h10]
      rw [hrw]
      have hw2 : 2 ≤ w := by
        by_contra hcon
        have hw1 : w = 1 := by omega
        subst hw1
        simp only [pow_one] at hw
        omega
      have hdiv : n / 10 < 10 ^ (w - 1) := by
        have hmul : 10 ^ (w - 1) * 10 = 10 ^ w := by
          have : w - 1 + 1 = w := by omega
          calc 10 ^ (w - 1) * 10 = 10 ^ (w - 1 + 1) := (pow_succ 10 (w - 1)).symm
            _ = 10 ^ w := by rw [this]
        exact (Nat.div_lt_iff_lt_mul (by omega)).mpr (hmul ▸ hw)
      have hfuel : n / 10 ≤ fuel := by
        have : n / 10 < n := Nat.div_lt_self (by omega) (by omega)
        omega
      have := ih (n / 10) (Nat.digitChar (n % 10) :: acc) (w - 1) hfuel hdiv (by omega)
      simp only [List.length_cons] at this
      omega

theorem natToDec_length {n w : Nat} (h : n < 10 ^ w) (hw : 1 ≤ w) :
    (natToDec n).length ≤ w := by
  have := decAux_length n n [] w le_rfl h hw
  simpa using this

theorem natToDec_digits {n : Nat} : ∀ c ∈ natToDec n, c.isDigit = true :=
  decAux_digits n n [] le_rfl (by simp)

theorem padLeft_length {w : Nat} {l : List Char} (h : l.length ≤ w) :
    (padLeft w l).length = w := by
  simp only [padLeft, List.length_append, List.length_replicate]
  omega

theorem padLeft_digits {w : Nat} {l : List Char} (h : ∀ c ∈ l, c.isDigit = true) :
    ∀ c ∈ padLeft w l, c.isDigit = true := by
  intro c hc
  rcases List.mem_append.mp hc with hc | hc
  · have := List.eq_of_mem_replicate hc
    subst this
    rfl
  · exact h c hc

theorem strftimeYMD_data (y m d : Nat) :
    (strftimeYMD ⟨y, m, d⟩).data
      = padLeft 4 (natToDec y)
        ++ ('.' :: (padLeft 2 (natToDec m) ++ ('.' :: padLeft 2 (natToDec d)))) := by
  simp [strftimeYMD, List.append_assoc]

/-- Claim C7: the consolidated destination index name is exactly the literal
prefix, the data stream name, the literal `-large-` part and the generation
date formatted as four digits, dot, two digits, dot, two digits. -/
theorem c7_large_index_name (ds : String) (y m d : Nat)
    (hy : y < 10000) (hm : m < 100) (hd : d < 100) :
    large_index_name ds ⟨y, m, d⟩
        = "reindex-.ds-" ++ ds ++ "-large-" ++ strftimeYMD ⟨y, m, d⟩ ∧
      isDateString (strftimeYMD ⟨y, m, d⟩) = true := by
  have hpow4 : (10 : Nat) ^ 4 = 10000 := by norm_num
  have hpow2 : (10 : Nat) ^ 2 = 100 := by norm_num
  have hy4 : (padLeft 4 (natToDec y)).length = 4 :=
    padLeft_length (natToDec_length (hpow4.symm ▸ hy) (by omega))
  have hm2 : (padLeft 2 (natToDec m)).length = 2 :=
    padLeft_length (natToDec_length (hpow2.symm ▸ hm) (by omega))
  have hd2 : (padLeft 2 (natToDec d)).length = 2 :=
    padLeft_length (natToDec_length (hpow2.symm ▸ hd) (by omega))
  refine ⟨rfl, ?_⟩
  have hcs := strftimeYMD_data y m d
  have hdrop4 : (strftimeYMD ⟨y, m, d⟩).data.drop 4
      = '.' :: (padLeft 2 (natToDec m) ++ ('.' :: padLeft 2 (natToDec d))) := by
    rw [hcs, List.drop_left' hy4]
  have hdrop5 : (strftimeYMD ⟨y, m, d⟩).data.drop 5
      = padLeft 2 (natToDec m) ++ ('.' :: padLeft 2 (natToDec d)) := by
    have h : (strftimeYMD ⟨y, m, d⟩).data.drop 5
        = ((strftimeYMD ⟨y, m, d⟩).data.drop 4).drop 1 := by
      rw [List.drop_drop]
    rw [h, hdrop4]
    rfl
  have hdrop7 : (strftimeYMD ⟨y, m, d⟩).data.drop 7
      = '.' :: padLeft 2 (natToDec d) := by
    have h : (strftimeYMD ⟨y, m, d⟩).data.drop 7
        = ((strftimeYMD ⟨y, m, d⟩).data.drop 5).drop 2 := by
      rw [List.drop_drop]
    rw [h, hdrop5, List.drop_left' hm2]
  have hdrop8 : (strftimeYMD ⟨y, m, d⟩).data.drop 8 = padLeft 2 (natToDec d) := by
    have h : (strftimeYMD ⟨y, m, d⟩).data.drop 8
        = ((strftimeYMD ⟨y, m, d⟩).data.drop 7).drop 1 := by
      rw [List.drop_drop]
    rw [h, hdrop7]
    rfl
  have htake4 : (strftimeYMD ⟨y, m, d⟩).data.take 4 = padLeft 4 (natToDec y) := by
    rw [hcs, List.take_left' hy4]
  have htake52 : ((strftimeYMD ⟨y, m, d⟩).data.drop 5).take 2 = padLeft 2 (natToDec m) := by
    rw [hdrop5, List.take_left' hm2]
  have hlen : (strftimeYMD ⟨y, m, d⟩).data.length = 10 := by
    rw [hcs]
    simp [hy4, hm2, hd2]
  have hdigY : isDigits (padLeft 4 (natToDec y)) = true := by
    simp only [isDigits, List.all_eq_true]
    intro c hc
    exact padLeft_digits (fun c' hc' => natToDec_digits c' hc') c hc
  have hdigM : isDigits (padLeft 2 (natToDec m)) = true := by
    simp only [isDigits, List.all_eq_true]
    intro c hc
    exact padLeft_digits (fun c' hc' => natToDec_digits c' hc') c hc
  have hdigD : isDigits (padLeft 2 (natToDec d)) = true := by
    simp only [isDigits, List.all_eq_true]
    intro c hc
    exact padLeft_digits (fun c' hc' => natToDec_digits c' hc') c hc
  simp [isDateString, hlen, htake4, hdrop4, htake52, hdrop7, hdrop8, hdigY, hdigM, hdigD]

/-- Witness for C7 at the concrete generation date 2026-10-12. -/
theorem c7_large_index_name_witness :
    large_index_name "logs-app-default" ⟨2026, 10, 12⟩
        = "reindex-.ds-" ++ "logs-app-default" ++ "-large-" ++ strftimeYMD ⟨2026, 10, 12⟩ ∧
      isDateString (strftimeYMD ⟨2026, 10, 12⟩) = true :=
  c7_large_index_name "logs-app-default" 2026 10 12 (by omega) (by omega) (by omega)

theorem get_suffix_number_nonneg {s : String} (h : hasValidSuffix s = true) :
    0 ≤ get_suffix_number s := by
  simp only [get_suffix_number, h, if_pos]
  exact Int.ofNat_nonneg _

theorem get_suffix_number_invalid {s : String} (h : hasValidSuffix s = false) :
    get_suffix_number s = -1 := by
  simp [get_suffix_number, h]

theorem pymaxFold_spec (key : String → Int) :
    ∀ (xs : List String) (best : String),
      ∃ l1 l2, best :: xs = l1 ++ pymaxFold key best xs :: l2 ∧
        (∀ x ∈ l1, key x < key (pymaxFold key best xs)) ∧
        (∀ x ∈ best :: xs, key x ≤ key (pymaxFold key best xs)) := by
  intro xs
  induction xs with
  | nil =>
    intro best
    refine ⟨[], [], rfl, by simp, ?_⟩
    intro x hx
    have hx' : x = best := by simpa using hx
    subst hx'
    exact le_refl _
  | cons y ys ih =>
    intro best
    by_cases h : key y > key best
    · have hP : pymaxFold key best (y :: ys) = pymaxFold key y ys := by
        simp [pymaxFold, h]
      obtain ⟨l1, l2, hdec, hlt, hle⟩ := ih y
      have hymax : key y ≤ key (pymaxFold key y ys) := hle y (List.mem_cons_self y ys)
      refine ⟨best :: l1, l2, ?_, ?_, ?_⟩
      · rw [hP, List.cons_append, ← hdec]
      · intro x hx
        rcases List.mem_cons.mp hx with hx | hx
        · subst hx
          rw [hP]
          exact lt_of_lt_of_le h hymax
        · rw [hP]
          exact hlt x hx
      · intro x hx
        rcases List.mem_cons.mp hx with hx | hx
        · subst hx
          rw [hP]
          exact le_of_lt (lt_of_lt_of_le h hymax)
        · rw [hP]
          exact hle x hx
    · have hyle : key y ≤ key best := not_lt.mp h
      have hP : pymaxFold key best (y :: ys) = pymaxFold key best ys := by
        simp [pymaxFold, h]
      obtain ⟨l1, l2, hdec, hlt, hle⟩ := ih best
      cases l1 with
      | nil =>
        have hdec' : best = pymaxFold key best ys ∧ ys = l2 := by
          have := hdec
          simp only [List.nil_append, List.cons.injEq] at this
          exact this
        refine ⟨[], y :: ys, ?_, by simp, ?_⟩
        · rw [List.nil_append, hP, ← hdec'.1]
        · intro x hx
          rcases List.mem_cons.mp hx with hx | hx
          · subst hx
            rw [hP, ← hdec'.1]
          · rcases List.mem_cons.mp hx with hx | hx
            · subst hx
              rw [hP, ← hdec'.1]
              exact hyle
            · rw [hP]
              exact hle x (List.mem_cons_of_mem best hx)
      | cons a l1' =>
        have hdec' : best = a ∧ ys = l1' ++ pymaxFold key best ys :: l2 := by
          have := hdec
          simp only [List.cons_append, List.cons.injEq] at this
          exact this
        have hbestlt : key best < key (pymaxFold key best ys) := by
          have := hlt a (List.mem_cons_self a l1')
          rw [← hdec'.1] at this
          exact this
        refine ⟨best :: y :: l1', l2, ?_, ?_, ?_⟩
        · rw [hP, List.cons_append, List.cons_append, ← hdec'.2]
        · intro x hx
          rcases List.mem_cons.mp hx with hx | hx
          · subst hx
            rw [hP]
            exact hbestlt
          · rcases List.mem_cons.mp hx with hx | hx
            · subst hx
              rw [hP]
              exact lt_of_le_of_lt hyle hbestlt
            · rw [hP]
              exact hlt x (List.mem_cons_of_mem a hx)
        · intro x hx
          rcases List.mem_cons.mp hx with hx | hx
          · subst hx
            rw [hP]
            exact hle x (List.mem_cons_self x ys)
          · rcases List.mem_cons.mp hx with hx | hx
            · subst hx
              rw [hP]
              exact le_trans hyle (hle best (List.mem_cons_self best ys))
            · rw [hP]
              exact hle x (List.mem_cons_of_mem best hx)

/-- Claim C4: on a non-empty list, the most-recent selection returns the
first element whose `get_suffix_number` key is maximal (every element keys at
most it, every element strictly before it keys strictly below it), and an
element without a parsable six-digit suffix is never selected when some
element has one. -/
theorem c4_most_recent (l : List String) (h : l ≠ []) :
    ∃ l1 mx l2, l = l1 ++ mx :: l2 ∧
      pymax get_suffix_number l = some mx ∧
      (∀ x ∈ l, get_suffix_number x ≤ get_suffix_number mx) ∧
      (∀ x ∈ l1, get_suffix_number x < get_suffix_number mx) ∧
      ((∃ x ∈ l, hasValidSuffix x = true) → hasValidSuffix mx = true) := by
  cases l with
  | nil => exact absurd rfl h
  | cons x xs =>
    obtain ⟨l1, l2, hdec, hlt, hle⟩ := pymaxFold_spec get_suffix_number xs x
    refine ⟨l1, pymaxFold get_suffix_number x xs, l2, hdec, rfl, hle, hlt, ?_⟩
    rintro ⟨z, hz, hvz⟩
    cases hv : hasValidSuffix (pymaxFold get_suffix_number x xs) with
    | true => rfl
    | false =>
      have h1 := get_suffix_number_invalid hv
      have h2 := get_suffix_number_nonneg hvz
      have h3 := hle z hz
      rw [h1] at h3
      omega

/-- Witness for C4: three concrete names, one without a parsable suffix; the
selected element is characterised by the theorem's decomposition. -/
theorem c4_most_recent_witness :
    ∃ l1 mx l2,
      (["partial-bad", "partial-.ds-a-2024.01.02-000002",
        "partial-.ds-a-2024.01.01-000001"] : List String) = l1 ++ mx :: l2 ∧
      pymax get_suffix_number
          ["partial-bad", "partial-.ds-a-2024.01.02-000002",
            "partial-.ds-a-2024.01.01-000001"] = some mx ∧
      (∀ x ∈ (["partial-bad", "partial-.ds-a-2024.01.02-000002",
          "partial-.ds-a-2024.01.01-000001"] : List String),
        get_suffix_number x ≤ get_suffix_number mx) ∧
      (∀ x ∈ l1, get_suffix_number x < get_suffix_number mx) ∧
      ((∃ x ∈ (["partial-bad", "partial-.ds-a-2024.01.02-000002",
          "partial-.ds-a-2024.01.01-000001"] : List String),
        hasValidSuffix x = true) → hasValidSuffix mx = true) :=
  c4_most_recent
    ["partial-bad", "partial-.ds-a-2024.01.02-000002",
      "partial-.ds-a-2024.01.01-000001"] (by decide)

theorem findK_some_datePat {t : List Char} :
    ∀ {n k : Nat}, findK t n = some k → datePat ((t.drop k).take 18) = true := by
  intro n
  induction n with
  | zero => intro k h; exact absurd h (by simp [findK])
  | succ n ih =>
    intro k h
    rw [findK] at h
    by_cases hc : ((t.take (n + 1)).all (fun c => c != '\n')
        && datePat ((t.drop (n + 1)).take 18)) = true
    · rw [if_pos hc] at h
      have hk : k = n + 1 := (Option.some.inj h).symm
      subst hk
      simp only [Bool.and_eq_true] at hc
      exact hc.2
    · rw [if_neg hc] at h
      exact ih h

theorem datePat_facts {cs : List Char} (h : datePat cs = true) :
    cs.length = 18 ∧ cs[11]? = some '-' := by
  simp only [datePat, Bool.and_eq_true, beq_iff_eq] at h
  obtain ⟨⟨⟨⟨⟨⟨⟨⟨hlen, _⟩, _⟩, _⟩, _⟩, _⟩, _⟩, h11⟩, _⟩ := h
  refine ⟨hlen, ?_⟩
  rw [← List.head?_drop]
  exact h11

theorem parse_partial_base_shape {s b : String} (h : parse_partial_base s = some b) :
    18 ≤ b.data.length ∧ b.data.reverse[6]? = some '-' := by
  simp only [parse_partial_base] at h
  by_cases hpre : (s.data.take 12 == "partial-.ds-".data) = true
  · rw [if_pos hpre] at h
    cases hk : findK (s.data.drop 12) ((s.data.drop 12).length - 18) with
    | none => rw [hk] at h; cases h
    | some k =>
      rw [hk] at h
      have hb : b = String.mk (".ds-".data ++ (s.data.drop 12).take k
          ++ ((s.data.drop 12).drop k).take 18) := (Option.some.inj h).symm
      obtain ⟨hlen18, h11⟩ := datePat_facts (findK_some_datePat hk)
      have hbdata : b.data = (".ds-".data ++ (s.data.drop 12).take k)
          ++ ((s.data.drop 12).drop k).take 18 := by
        rw [hb]
      constructor
      · rw [hbdata]
        simp only [List.length_append, hlen18]
        omega
      · rw [hbdata, List.reverse_append, List.getElem?_append]
        have hbl : (((s.data.drop 12).drop k).take 18).reverse.length = 18 := by
          rw [List.length_reverse, hlen18]
        rw [if_pos (by omega)]
        rw [List.getElem?_reverse (by omega)]
        rw [hlen18]
        exact h11
  · rw [if_neg hpre] at h
    cases h

theorem reindex_dest_rev6 {a x : String} (h : reindex_dest a = some x) :
    x.data.reverse[6]? = some '-' := by
  obtain ⟨b, hb, hx⟩ := Option.map_eq_some'.mp h
  obtain ⟨hlen, hrev⟩ := parse_partial_base_shape hb
  rw [← hx, String.data_append, List.reverse_append, List.getElem?_append]
  rw [if_pos (by rw [List.length_reverse]; omega)]
  exact hrev

theorem large_rev6 (ds : String) {y m d : Nat}
    (hy : y < 10000) (hm : m < 100) (hd : d < 100) :
    ∃ c, (large_index_name ds ⟨y, m, d⟩).data.reverse[6]? = some c ∧ c.isDigit = true := by
  have hpow4 : (10 : Nat) ^ 4 = 10000 := by norm_num
  have hpow2 : (10 : Nat) ^ 2 = 100 := by norm_num
  have hy4 : (padLeft 4 (natToDec y)).length = 4 :=
    padLeft_length (natToDec_length (hpow4.symm ▸ hy) (by omega))
  have hm2 : (padLeft 2 (natToDec m)).length = 2 :=
    padLeft_length (natToDec_length (hpow2.symm ▸ hm) (by omega))
  have hd2 : (padLeft 2 (natToDec d)).length = 2 :=
    padLeft_length (natToDec_length (hpow2.symm ▸ hd) (by omega))
  have hstrf := strftimeYMD_data y m d
  have hstrlen : (strftimeYMD ⟨y, m, d⟩).data.length = 10 := by
    rw [hstrf]
    simp [hy4, hm2, hd2]
  have hdata : (large_index_name ds ⟨y, m, d⟩).data
      = ("reindex-.ds-" ++ ds ++ "-large-").data ++ (strftimeYMD ⟨y, m, d⟩).data :=
    String.data_append _ _
  have h3lt : 3 < (padLeft 4 (natToDec y)).length := by
    rw [hy4]
    omega
  have h3 : (strftimeYMD ⟨y, m, d⟩).data[3]?
      = some ((padLeft 4 (natToDec y)).get ⟨3, h3lt⟩) := by
    rw [hstrf, List.getElem?_append, if_pos h3lt]
    exact List.getElem?_eq_getElem h3lt
  refine ⟨(padLeft 4 (natToDec y)).get ⟨3, h3lt⟩, ?_, ?_⟩
  · rw [hdata, List.reverse_append, List.getElem?_append]
    rw [if_pos (by rw [List.length_reverse, hstrlen]; omega)]
    rw [List.getElem?_reverse (by rw [hstrlen]; omega), hstrlen]
    exact h3
  · exact padLeft_digits (fun c' hc' => natToDec_digits c' hc') _ (List.getElem_mem h3lt)

/-- Claim C9: the deletion candidate set is exactly the concatenation of the
sorted partial indices and the derived temp indices and never contains the
consolidated index; when non-empty, step 9 emits the single delete command
joining all the names, otherwise the nothing-to-delete success message. -/
theorem c9_deletion (catResult : Option (List CatRow)) (ds : String) (y m d : Nat)
    (hy : y < 10000) (hm : m < 100) (hd : d < 100) :
    (∀ x ∈ sorted_partial_indices catResult
        ++ reindex_temp_indices_of (sorted_partial_indices catResult),
      x ≠ large_index_name ds ⟨y, m, d⟩) ∧
      (sorted_partial_indices catResult
          ++ reindex_temp_indices_of (sorted_partial_indices catResult) ≠ [] →
        step9Lines (sorted_partial_indices catResult)
            (reindex_temp_indices_of (sorted_partial_indices catResult))
          = [sepLine, h9Line, p9Line,
            deleteLine (sorted_partial_indices catResult
              ++ reindex_temp_indices_of (sorted_partial_indices catResult))]) ∧
      (sorted_partial_indices catResult
          ++ reindex_temp_indices_of (sorted_partial_indices catResult) = [] →
        step9Lines (sorted_partial_indices catResult)
            (reindex_temp_indices_of (sorted_partial_indices catResult))
          = [sepLine, h9Line, ok9Line]) := by
  refine ⟨?_, ?_, ?_⟩
  · intro x hx heq
    rcases List.mem_append.mp hx with hx | hx
    · have hmem : x ∈ get_partial_indices_for_data_stream catResult := by
        have := mem_pySort.mp (by simpa [sorted_partial_indices] using hx)
        exact this
      have hsw := (mem_get_partial_indices hmem).2.1
      obtain ⟨t, ht⟩ := List.isPrefixOf_iff_prefix.mp hsw
      have h0x : x.data[0]? = some 'p' := by rw [← ht]; rfl
      have h0l : (large_index_name ds ⟨y, m, d⟩).data[0]? = some 'r' := by rfl
      rw [heq, h0l] at h0x
      cases h0x
    · obtain ⟨a, _, hda⟩ := List.mem_filterMap.mp hx
      have hrev := reindex_dest_rev6 hda
      obtain ⟨c, hcl, hcd⟩ := large_rev6 ds hy hm hd
      rw [heq, hcl] at hrev
      have hc : c = '-' := Option.some.inj hrev
      rw [hc] at hcd
      exact absurd hcd (by decide)
  · intro hne
    cases hl : sorted_partial_indices catResult
        ++ reindex_temp_indices_of (sorted_partial_indices catResult) with
    | nil => exact absurd hl hne
    | cons a t =>
      simp [step9Lines, hl]
  · intro h0
    simp [step9Lines, h0]

/-- Witness for C9: one parsable partial index in the listing; the delete
command joins the original and its derived temp index and differs from the
consolidated name. -/
theorem c9_deletion_witness :
    (∀ x ∈ sorted_partial_indices
          (some [some "partial-.ds-logs-app-default-2024.01.01-000001"])
        ++ reindex_temp_indices_of (sorted_partial_indices
          (some [some "partial-.ds-logs-app-default-2024.01.01-000001"])),
      x ≠ large_index_name "logs-app-default" ⟨2026, 10, 12⟩) ∧
      step9Lines (sorted_partial_indices
            (some [some "partial-.ds-logs-app-default-2024.01.01-000001"]))
          (reindex_temp_indices_of (sorted_partial_indices
            (some [some "partial-.ds-logs-app-default-2024.01.01-000001"])))
        = [sepLine, h9Line, p9Line,
          deleteLine (sorted_partial_indices
              (some [some "partial-.ds-logs-app-default-2024.01.01-000001"])
            ++ reindex_temp_indices_of (sorted_partial_indices
              (some [some "partial-.ds-logs-app-default-2024.01.01-000001"])))] := by
  have h := c9_deletion (some [some "partial-.ds-logs-app-default-2024.01.01-000001"])
    "logs-app-default" 2026 10 12 (by omega) (by omega) (by omega)
  exact ⟨h.1, h.2.1 (by decide)⟩

end ReindexScript
